import Mathlib

/-!
Shallow embedding of `universal_mcp_domain_checker/app.py`.

The module has two network helpers (`check_dns`, `get_rdap_data`) and two
tools composing them (`check_domain_tool`, `check_tlds_tool`).  Network
effects are modelled as oracle functions passed in as parameters; each
embedded operation additionally returns the trace of lookups it performed,
so that statements about which lookups happen (and in which order) can be
made.  Python exceptions are modelled with `Except String`; Python
truthiness (`if rdap_data:`) is modelled explicitly by `pyTruthy`.
-/

set_option autoImplicit false

namespace DomainChecker

/-- JSON values as produced by `response.json()`. -/
inductive Json where
  | null
  | bool (b : Bool)
  | num (n : Int)
  | str (s : String)
  | arr (elems : List Json)
  | obj (fields : List (String × Json))

/-- Python truthiness of a JSON value (used by `if rdap_data:` and
`if not rdap_data:` in the source). -/
def pyTruthy : Json → Bool
  | .null => false
  | .bool b => b
  | .num n => decide (n ≠ 0)
  | .str s => decide (s ≠ "")
  | .arr xs => !xs.isEmpty
  | .obj fs => !fs.isEmpty

/-- Truthiness of the `Optional[Dict]` returned by `get_rdap_data`:
`None` is falsy, a JSON value is as truthy as Python says. -/
def optTruthy : Option Json → Bool
  | none => false
  | some j => pyTruthy j

/-- Python `x == "lit"`: a JSON value compared against a string literal is
equal exactly when it is that string. -/
def Json.eqStr : Json → String → Bool
  | .str a, b => a == b
  | _, _ => false

/-- Python `d.get(key, dflt)`.  On a dict it returns the first binding of
the key, or the default; on any other value `.get` raises
`AttributeError`. -/
def dictGet (j : Json) (key : String) (dflt : Json) : Except String Json :=
  match j with
  | .obj fields => .ok ((fields.lookup key).getD dflt)
  | _ => .error "AttributeError"

/-- Python `x[i]` for a non-negative literal index `i`: list indexing
(IndexError out of bounds), string indexing (a one-character string),
dict indexing by an integer key (KeyError, since JSON object keys are
strings), TypeError otherwise. -/
def pyIndex (j : Json) (i : Nat) : Except String Json :=
  match j with
  | .arr xs =>
    match xs[i]? with
    | some x => .ok x
    | none => .error "IndexError"
  | .str s =>
    match s.data[i]? with
    | some c => .ok (.str (String.singleton c))
    | none => .error "IndexError"
  | .obj _ => .error "KeyError"
  | _ => .error "TypeError"

/-- Python `len(x)`: defined on lists, strings and dicts, TypeError
otherwise. -/
def pyLen (j : Json) : Except String Nat :=
  match j with
  | .arr xs => .ok xs.length
  | .str s => .ok s.length
  | .obj fields => .ok fields.length
  | _ => .error "TypeError"

/-- Python `needle in container` for a string needle: list membership by
equality, substring test on strings, key membership on dicts, TypeError
otherwise. -/
def pyIn (needle : String) (container : Json) : Except String Bool :=
  match container with
  | .arr xs => .ok (xs.any (fun x => x.eqStr needle))
  | .str s => .ok (if needle = "" then true else decide ((s.splitOn needle).length > 1))
  | .obj fields => .ok (fields.any (fun f => f.1 == needle))
  | _ => .error "TypeError"

/-- Python `for x in j`: lists yield their elements, strings their
one-character substrings, dicts their keys; TypeError otherwise. -/
def pyIter (j : Json) : Except String (List Json) :=
  match j with
  | .arr xs => .ok xs
  | .str s => .ok (s.data.map (fun c => .str (String.singleton c)))
  | .obj fields => .ok (fields.map (fun f => .str f.1))
  | _ => .error "TypeError"

/-! ### Constants of the module -/

/-- `USER_AGENT = "DomainCheckerBot/1.0"`. -/
def USER_AGENT : String := "DomainCheckerBot/1.0"

/-- `TOP_TLDS`, the fixed list of TLDs swept by `check_tlds_tool`. -/
def TOP_TLDS : List String :=
  ["com", "net", "org", "io", "co", "app", "dev", "ai",
   "me", "info", "xyz", "online", "site", "tech"]

/-! ### `check_dns` -/

/-- The two DNS queries the helper can issue. -/
inductive DnsQuery where
  | A
  | NS
deriving DecidableEq, Repr

/-- Whether a resolver outcome is a success (no exception raised). -/
def resOk : Except String Unit → Bool
  | .ok _ => true
  | .error _ => false

/-- `check_dns`: try an A-record lookup, on any exception try an NS-record
lookup, on any exception return `False`.  The resolver outcomes are an
oracle; the second component is the trace of queries attempted. -/
def check_dns (resolve : DnsQuery → Except String Unit) : Bool × List DnsQuery :=
  match resolve .A with
  | .ok _ => (true, [.A])
  | .error _ =>
    match resolve .NS with
    | .ok _ => (true, [.A, .NS])
    | .error _ => (false, [.A, .NS])

/-! ### `get_rdap_data` -/

/-- An HTTP GET request as issued by `requests.get(url, headers, timeout)`. -/
structure HttpRequest where
  url : String
  headers : List (String × String)
  timeoutSecs : Nat
deriving DecidableEq, Repr

/-- Outcome of an HTTP GET: a response with a status code and a JSON-parse
result for its body, or an exception (connection error, timeout, ...). -/
inductive HttpOutcome where
  | response (status : Nat) (body : Except String Json)
  | failure (msg : String)

/-- A failing RDAP lookup: anything but a 200 response with a parseable
JSON body. -/
def httpFailed : HttpOutcome → Bool
  | .response status (.ok _) => decide (status ≠ 200)
  | .response _ (.error _) => true
  | .failure _ => true

/-- `domain.split(".")[-1].lower()`: the final dot-separated component of
the domain, lowercased (`split` always yields a nonempty list). -/
def lastTld (domain : String) : String :=
  ((domain.splitOn ".").getLastD "").toLower

/-- RDAP URL selection of `get_rdap_data`: the last dot-separated component
of the domain, lowercased, picks the server. -/
def buildRdapUrl (domain : String) : String :=
  if lastTld domain = "ch" ∨ lastTld domain = "li" then
    "https://rdap.nic." ++ lastTld domain ++ "/domain/" ++ domain
  else if lastTld domain = "com" ∨ lastTld domain = "net" then
    "https://rdap.verisign.com/" ++ lastTld domain ++ "/v1/domain/" ++ domain
  else if lastTld domain = "org" then
    "https://rdap.publicinterestregistry.org/rdap/domain/" ++ domain
  else
    "https://rdap.org/domain/" ++ domain

/-- The fixed headers dict passed to `requests.get`. -/
def rdapHeaders : List (String × String) :=
  [("Accept", "application/rdap+json"), ("User-Agent", USER_AGENT)]

/-- What `get_rdap_data` returns for one HTTP outcome: the parsed body on
a 200 response (`if response.status_code == 200: return response.json()`),
`None` on a non-200 status, a JSON parse error or a raised exception. -/
def rdapResult : HttpOutcome → Option Json
  | .response status body =>
    if status = 200 then
      match body with
      | .ok j => some j
      | .error _ => none
    else none
  | .failure _ => none

/-- `get_rdap_data`: one GET against the selected RDAP server, then
`rdapResult` of its outcome.  The HTTP layer is an oracle; the second
component is the trace of requests issued. -/
def get_rdap_data (domain : String) (http : HttpRequest → HttpOutcome) :
    Option Json × List HttpRequest :=
  let req : HttpRequest := ⟨buildRdapUrl domain, rdapHeaders, 5⟩
  (rdapResult (http req), [req])

/-! ### Registrar / date extraction inside `check_domain_tool` -/

/-- The inner loop over `vcard[1]`: find the first entry whose head is
`"fn"` or `"org"` and whose length exceeds 3, and return its element 3.
Python exceptions (for example `entry[0]` on an empty entry) propagate. -/
def entriesScan (entries : List Json) : Except String (Option Json) :=
  match entries with
  | [] => .ok none
  | entry :: rest =>
    match pyIndex entry 0 with
    | .error e => .error e
    | .ok e0 =>
      if e0.eqStr "fn" || e0.eqStr "org" then
        match pyLen entry with
        | .error e => .error e
        | .ok n =>
          if n > 3 then
            match pyIndex entry 3 with
            | .error e => .error e
            | .ok e3 => .ok (some e3)
          else
            entriesScan rest
      else
        entriesScan rest

/-- The body of the outer loop over `entities` for one entity: when its
roles contain `"registrar"` and `vcard[1]` is a list, scan it; a found
value replaces the accumulator. -/
def entityStep (ent acc : Json) : Except String Json :=
  match dictGet ent "roles" (.arr []) with
  | .error e => .error e
  | .ok roles =>
    match pyIn "registrar" roles with
    | .error e => .error e
    | .ok isReg =>
      if isReg then
        match dictGet ent "vcardArray" (.arr []) with
        | .error e => .error e
        | .ok vcard =>
          match pyLen vcard with
          | .error e => .error e
          | .ok n =>
            if n > 1 then
              match pyIndex vcard 1 with
              | .error e => .error e
              | .ok v1 =>
                match v1 with
                | .arr entries =>
                  match entriesScan entries with
                  | .error e => .error e
                  | .ok (some v) => .ok v
                  | .ok none => .ok acc
                | _ => .ok acc
            else
              .ok acc
      else
        .ok acc

/-- The outer loop over `entities`, threading the `registrar` variable. -/
def registrarLoop (l : List Json) (acc : Json) : Except String Json :=
  match l with
  | [] => .ok acc
  | ent :: rest =>
    match entityStep ent acc with
    | .error e => .error e
    | .ok acc2 => registrarLoop rest acc2

/-- The body of the loop over `events` for one event: a `registration`
event sets `reg_date`, an `expiration` event sets `exp_date`, each to the
event date or `"Unknown"` when missing. -/
def eventStep (ev : Json) (rd ed : Json) : Except String (Json × Json) :=
  match dictGet ev "eventAction" .null with
  | .error e => .error e
  | .ok action =>
    if action.eqStr "registration" then
      match dictGet ev "eventDate" (.str "Unknown") with
      | .error e => .error e
      | .ok d => .ok (d, ed)
    else if action.eqStr "expiration" then
      match dictGet ev "eventDate" (.str "Unknown") with
      | .error e => .error e
      | .ok d => .ok (rd, d)
    else
      .ok (rd, ed)

/-- The loop over `events`, threading `reg_date` and `exp_date`. -/
def datesLoop (l : List Json) (rd ed : Json) : Except String (Json × Json) :=
  match l with
  | [] => .ok (rd, ed)
  | ev :: rest =>
    match eventStep ev rd ed with
    | .error e => .error e
    | .ok p => datesLoop rest p.1 p.2

/-- The whole extraction block of `check_domain_tool` (lines 121-143):
registrar from the entities, then the two dates from the events, starting
from `"Unknown"`. -/
def extractRdapInfo (rdap : Json) : Except String (Json × Json × Json) :=
  match dictGet rdap "entities" (.arr []) with
  | .error e => .error e
  | .ok entitiesJ =>
    match pyIter entitiesJ with
    | .error e => .error e
    | .ok entities =>
      match registrarLoop entities (.str "Unknown") with
      | .error e => .error e
      | .ok registrar =>
        match dictGet rdap "events" (.arr []) with
        | .error e => .error e
        | .ok eventsJ =>
          match pyIter eventsJ with
          | .error e => .error e
          | .ok events =>
            match datesLoop events (.str "Unknown") (.str "Unknown") with
            | .error e => .error e
            | .ok dates => .ok (registrar, dates.1, dates.2)

/-! ### `check_domain_tool` -/

/-- The result dict of `check_domain_tool`.  `registrar` and the dates are
JSON values (the code stores whatever `entry[3]` / `eventDate` holds);
`note` is present only in some branches. -/
structure DomainResult where
  domain : String
  status : String
  registrar : Json
  registration_date : Json
  expiration_date : Json
  has_dns : Bool
  rdap_data_available : Bool
  note : Option String

/-- The return dict of lines 145-153 (DNS hit, RDAP data parsed). -/
def registeredFull (domain : String) (info : Json × Json × Json) : DomainResult :=
  ⟨domain, "Registered", info.1, info.2.1, info.2.2, true, true, none⟩

/-- The return dict of lines 155-164 (DNS hit, no usable RDAP data). -/
def registeredNoRdap (domain : String) : DomainResult :=
  ⟨domain, "Registered", .str "Unknown", .str "Unknown", .str "Unknown",
   true, false, some "Domain has DNS records but RDAP data couldn\x27t be retrieved"⟩

/-- The return dict of lines 168-178 (no DNS, RDAP hit). -/
def registeredRdapOnly (domain : String) : DomainResult :=
  ⟨domain, "Registered", .str "Unknown", .str "Unknown", .str "Unknown",
   false, true, some "Domain found in RDAP registry"⟩

/-- The return dict of lines 181-190 (no DNS, no RDAP data). -/
def availableResult (domain : String) : DomainResult :=
  ⟨domain, "Available", .null, .null, .null,
   false, false, some "No DNS records or RDAP data found"⟩

/-- `check_domain_tool`, with the outcomes of the two lookups as oracle
values: `hasDns` is what `check_dns` returned, `rdap` what `get_rdap_data`
returned (the code issues exactly one RDAP fetch per call).  The branches
test Python truthiness of `rdap_data`, and the extraction block can raise. -/
def check_domain_tool (domain : String) (hasDns : Bool) (rdap : Option Json) :
    Except String DomainResult :=
  match hasDns, rdap with
  | true, some rd =>
    if pyTruthy rd then
      match extractRdapInfo rd with
      | .error e => .error e
      | .ok info => .ok (registeredFull domain info)
    else
      .ok (registeredNoRdap domain)
  | true, none => .ok (registeredNoRdap domain)
  | false, some rd =>
    if pyTruthy rd then
      .ok (registeredRdapOnly domain)
    else
      .ok (availableResult domain)
  | false, none => .ok (availableResult domain)

/-! ### `check_tlds_tool` -/

/-- `f"{keyword}.{tld}"`. -/
def mkDomain (keyword tld : String) : String := keyword ++ "." ++ tld

/-- The result dict of `check_tlds_tool`. -/
structure TldsResult where
  keyword : String
  tlds_checked : Nat
  available_count : Nat
  taken_count : Nat
  available_domains : List String
  taken_domains : List String
  tlds_checked_list : List String
deriving DecidableEq, Repr

/-- The loop of `check_tlds_tool` over a TLD list: DNS first; on a DNS hit
the domain is taken and RDAP is not consulted; otherwise RDAP decides.
Returns `(available, taken, dnsCalls, rdapCalls)`, each in loop order. -/
def tldsLoop (keyword : String) (hasDns : String → Bool) (rdap : String → Option Json) :
    List String → List String × List String × List String × List String
  | [] => ([], [], [], [])
  | tld :: rest =>
    let d := mkDomain keyword tld
    let r := tldsLoop keyword hasDns rdap rest
    if hasDns d then
      (r.1, d :: r.2.1, d :: r.2.2.1, r.2.2.2)
    else if optTruthy (rdap d) then
      (r.1, d :: r.2.1, d :: r.2.2.1, d :: r.2.2.2)
    else
      (d :: r.1, r.2.1, d :: r.2.2.1, d :: r.2.2.2)

/-- `check_tlds_tool`, with the lookup outcomes as oracle functions from
domain strings.  The second and third components are the traces of DNS
checks and RDAP fetches performed. -/
def check_tlds_tool (keyword : String) (hasDns : String → Bool)
    (rdap : String → Option Json) : TldsResult × List String × List String :=
  let r := tldsLoop keyword hasDns rdap TOP_TLDS
  (⟨keyword, TOP_TLDS.length, r.1.length, r.2.1.length, r.1, r.2.1, TOP_TLDS⟩,
   r.2.2.1, r.2.2.2)

/-! ## Spec-side definitions -/

/-- Follows the words of the spec claim about RDAP endpoint selection: a
static table from the final dot-separated suffix (lowercased) of the
domain to a server URL. -/
def rdapUrlTable (domain : String) : String :=
  if lastTld domain = "ch" then "https://rdap.nic.ch/domain/" ++ domain
  else if lastTld domain = "li" then "https://rdap.nic.li/domain/" ++ domain
  else if lastTld domain = "com" then "https://rdap.verisign.com/com/v1/domain/" ++ domain
  else if lastTld domain = "net" then "https://rdap.verisign.com/net/v1/domain/" ++ domain
  else if lastTld domain = "org" then
    "https://rdap.publicinterestregistry.org/rdap/domain/" ++ domain
  else "https://rdap.org/domain/" ++ domain

/-! ## Helper lemmas -/

theorem rdapResult_none_of_failed (o : HttpOutcome) (h : httpFailed o = true) :
    rdapResult o = none := by
  cases o with
  | failure m => rfl
  | response st body =>
    cases body with
    | error e =>
      show (if st = 200 then (none : Option Json) else none) = none
      exact ite_self none
    | ok j =>
      have hst : st ≠ 200 := by simpa [httpFailed] using h
      show (if st = 200 then some j else none) = none
      rw [if_neg hst]

theorem cdt_false_none (domain : String) :
    check_domain_tool domain false none = .ok (availableResult domain) := rfl

theorem cdt_true_none (domain : String) :
    check_domain_tool domain true none = .ok (registeredNoRdap domain) := rfl

theorem cdt_false_some (domain : String) (rd : Json) :
    check_domain_tool domain false (some rd) =
      if pyTruthy rd then .ok (registeredRdapOnly domain)
      else .ok (availableResult domain) := rfl

theorem cdt_true_some (domain : String) (rd : Json) :
    check_domain_tool domain true (some rd) =
      (if pyTruthy rd then
        match extractRdapInfo rd with
        | .error e => .error e
        | .ok info => .ok (registeredFull domain info)
      else .ok (registeredNoRdap domain)) := rfl

/-! ## Claims -/

/-- C3: `check_dns` first attempts A-record resolution and returns true if
it succeeds; only when the A lookup fails does it attempt the NS lookup,
returning true on success; it returns false when both fail, and it always
returns a boolean. -/
theorem claim_C3_check_dns_order (resolve : DnsQuery → Except String Unit) :
    (check_dns resolve).1 = (resOk (resolve .A) || resOk (resolve .NS))
    ∧ (check_dns resolve).2 =
        (if resOk (resolve .A) then [DnsQuery.A] else [DnsQuery.A, DnsQuery.NS]) := by
  rcases hA : resolve DnsQuery.A with u | eA <;>
    rcases hN : resolve DnsQuery.NS with u2 | eN <;>
      simp [check_dns, resOk, hA, hN]

/-- C4: `get_rdap_data` performs exactly one HTTP GET, with the fixed
`Accept`/`User-Agent` header pair and a 5-second timeout, and returns the
parsed JSON body of a 200 response, or nothing on any failure. -/
theorem claim_C4_get_rdap_one_request (domain : String)
    (http : HttpRequest → HttpOutcome) :
    ∃ req : HttpRequest,
      (get_rdap_data domain http).2 = [req]
      ∧ req.headers =
          [("Accept", "application/rdap+json"), ("User-Agent", "DomainCheckerBot/1.0")]
      ∧ req.timeoutSecs = 5
      ∧ (∀ j : Json, http req = .response 200 (.ok j) →
          (get_rdap_data domain http).1 = some j)
      ∧ (httpFailed (http req) = true → (get_rdap_data domain http).1 = none) := by
  refine ⟨⟨buildRdapUrl domain, rdapHeaders, 5⟩, rfl, rfl, rfl, ?_, ?_⟩
  · intro j hj
    show rdapResult (http ⟨buildRdapUrl domain, rdapHeaders, 5⟩) = some j
    rw [hj]
    rfl
  · intro hf
    exact rdapResult_none_of_failed _ hf

/-- C4 witness: at a concrete domain and HTTP oracle, the parsed JSON body
is returned. -/
theorem claim_C4_get_rdap_one_request_witness :
    (get_rdap_data "example.com"
      (fun _ => .response 200 (.ok (Json.obj [])))).1 = some (Json.obj []) := by
  obtain ⟨req, h1, h2, h3, h4, h5⟩ :=
    claim_C4_get_rdap_one_request "example.com"
      (fun _ => .response 200 (.ok (Json.obj [])))
  exact h4 (Json.obj []) rfl

/-- C5: the RDAP server URL is selected from the final dot-separated
suffix (lowercased) of the domain by the static table given in the spec. -/
theorem claim_C5_rdap_url_table (domain : String) :
    buildRdapUrl domain = rdapUrlTable domain := by
  unfold buildRdapUrl rdapUrlTable
  by_cases h1 : lastTld domain = "ch"
  · simp [h1]
  · by_cases h2 : lastTld domain = "li"
    · simp [h1, h2]
    · by_cases h3 : lastTld domain = "com"
      · simp [h1, h2, h3]
      · by_cases h4 : lastTld domain = "net"
        · simp [h1, h2, h3, h4]
        · by_cases h5 : lastTld domain = "org"
          · simp [h1, h2, h3, h4, h5]
          · simp [h1, h2, h3, h4, h5]

/-- C7: every failure of a DNS or RDAP lookup is treated as not-found:
when both resolver calls fail `check_dns` returns false, and when the HTTP
outcome is any failure `get_rdap_data` returns nothing; neither helper
propagates an error (their return types carry no exception). -/
theorem claim_C7_failures_not_found (domain : String)
    (resolve : DnsQuery → Except String Unit) (http : HttpRequest → HttpOutcome)
    (hA : resOk (resolve .A) = false) (hNS : resOk (resolve .NS) = false)
    (hH : ∀ req : HttpRequest, httpFailed (http req) = true) :
    (check_dns resolve).1 = false ∧ (get_rdap_data domain http).1 = none := by
  constructor
  · rcases hA2 : resolve DnsQuery.A with eA | u
    · rcases hN2 : resolve DnsQuery.NS with eN | u2
      · simp [check_dns, hA2, hN2]
      · rw [hN2] at hNS
        simp [resOk] at hNS
    · rw [hA2] at hA
      simp [resOk] at hA
  · exact rdapResult_none_of_failed _ (hH _)

/-- C7 witness: concrete always-failing oracles. -/
theorem claim_C7_failures_not_found_witness :
    (check_dns (fun _ => .error "resolver down")).1 = false
    ∧ (get_rdap_data "example.com" (fun _ => .failure "connection refused")).1 = none :=
  claim_C7_failures_not_found "example.com"
    (fun _ => .error "resolver down") (fun _ => .failure "connection refused")
    rfl rfl (fun _ => rfl)

/-- C1 counterexample: with no DNS records and an RDAP fetch that returns
the (well-formed, but Python-falsy) empty JSON object rather than nothing,
`check_domain_tool` still reports "Available" and sets
`rdap_data_available` to false, although the RDAP fetch returned data. -/
theorem claim_C1_counterexample :
    check_domain_tool "example.com" false (some (Json.obj [])) =
      Except.ok ⟨"example.com", "Available", Json.null, Json.null, Json.null,
        false, false, some "No DNS records or RDAP data found"⟩ := rfl

/-- C1 (amended): the status is "Available" exactly when the DNS check
returned false and the RDAP fetch returned nothing or a Python-falsy JSON
value; it is "Registered" in every other case; `has_dns` equals the DNS
outcome and `rdap_data_available` is the truthiness of the RDAP outcome. -/
theorem claim_C1_status (domain : String) (hasDns : Bool) (rdap : Option Json)
    (r : DomainResult) (h : check_domain_tool domain hasDns rdap = Except.ok r) :
    (r.status = "Available" ↔ (hasDns = false ∧ optTruthy rdap = false))
    ∧ r.has_dns = hasDns
    ∧ r.rdap_data_available = optTruthy rdap
    ∧ (r.status = "Available" ∨ r.status = "Registered") := by
  have hra : ¬ (("Registered" : String) = "Available") := by decide
  cases hasDns <;> rcases rdap with _ | rd
  · obtain rfl := Except.ok.inj h
    exact ⟨by simp [availableResult, optTruthy], rfl, rfl, Or.inl rfl⟩
  · rw [cdt_false_some] at h
    cases ht : pyTruthy rd with
    | false =>
      rw [ht] at h
      obtain rfl := Except.ok.inj h
      exact ⟨by simp [availableResult, optTruthy, ht], rfl,
        by simp [availableResult, optTruthy, ht], Or.inl rfl⟩
    | true =>
      rw [ht] at h
      obtain rfl := Except.ok.inj h
      refine ⟨?_, rfl, by simp [registeredRdapOnly, optTruthy, ht], Or.inr rfl⟩
      constructor
      · intro hc
        exact absurd hc hra
      · intro hc
        have := hc.2
        simp [optTruthy, ht] at this
  · obtain rfl := Except.ok.inj h
    refine ⟨?_, rfl, rfl, Or.inr rfl⟩
    constructor
    · intro hc
      exact absurd hc hra
    · intro hc
      exact absurd hc.1 (by decide)
  · rw [cdt_true_some] at h
    cases ht : pyTruthy rd with
    | false =>
      rw [ht] at h
      obtain rfl := Except.ok.inj h
      refine ⟨?_, rfl, by simp [registeredNoRdap, optTruthy, ht], Or.inr rfl⟩
      constructor
      · intro hc
        exact absurd hc hra
      · intro hc
        exact absurd hc.1 (by decide)
    | true =>
      rw [ht] at h
      rcases hE : extractRdapInfo rd with e | info
      · rw [hE] at h
        exact absurd h (by simp)
      · rw [hE] at h
        obtain rfl := Except.ok.inj h
        refine ⟨?_, rfl, by simp [registeredFull, optTruthy, ht], Or.inr rfl⟩
        constructor
        · intro hc
          exact absurd hc hra
        · intro hc
          exact absurd hc.1 (by decide)

/-- C1 witness: a concrete available domain. -/
theorem claim_C1_status_witness :
    ((⟨"example.com", "Available", Json.null, Json.null, Json.null, false, false,
        some "No DNS records or RDAP data found"⟩ : DomainResult).status = "Available"
      ↔ (false = false ∧ optTruthy none = false)) :=
  (claim_C1_status "example.com" false none
    ⟨"example.com", "Available", Json.null, Json.null, Json.null, false, false,
      some "No DNS records or RDAP data found"⟩ rfl).1

/-! ## The TLD sweep -/

theorem tldsLoop_spec (kw : String) (h : String → Bool) (r : String → Option Json)
    (l : List String) :
    tldsLoop kw h r l =
      ((l.map (mkDomain kw)).filter (fun d => !h d && !optTruthy (r d)),
       (l.map (mkDomain kw)).filter (fun d => h d || optTruthy (r d)),
       l.map (mkDomain kw),
       (l.map (mkDomain kw)).filter (fun d => !h d)) := by
  induction l with
  | nil => rfl
  | cons tld rest ih =>
    by_cases hd : h (mkDomain kw tld) <;>
      by_cases hr : optTruthy (r (mkDomain kw tld)) = true <;>
        simp [tldsLoop, ih, List.filter_cons, hd, hr]

theorem filter_compl_length {α : Type} (p q : α → Bool) (hpq : ∀ a, q a = !p a)
    (l : List α) : (l.filter p).length + (l.filter q).length = l.length := by
  induction l with
  | nil => rfl
  | cons a t ih =>
    by_cases hp : p a <;> simp [List.filter_cons, hp, hpq a] <;> omega

/-- C6: `check_tlds_tool` checks exactly the fixed 14-TLD list, in order,
and reports `tlds_checked = 14` and `tlds_checked_list` equal to that
list, independently of the keyword and of the lookup outcomes. -/
theorem claim_C6_fixed_tld_list (kw : String) (h : String → Bool)
    (r : String → Option Json) :
    (check_tlds_tool kw h r).1.tlds_checked = 14
    ∧ (check_tlds_tool kw h r).1.tlds_checked_list = TOP_TLDS
    ∧ TOP_TLDS = ["com", "net", "org", "io", "co", "app", "dev", "ai",
        "me", "info", "xyz", "online", "site", "tech"]
    ∧ (check_tlds_tool kw h r).2.1 = TOP_TLDS.map (mkDomain kw) := by
  refine ⟨rfl, rfl, rfl, ?_⟩
  show (tldsLoop kw h r TOP_TLDS).2.2.1 = TOP_TLDS.map (mkDomain kw)
  rw [tldsLoop_spec]

/-- C10: in every outcome the counts equal the list lengths, they sum to
the number of TLDs checked, each checked domain lands in exactly one of
the two lists, and both lists preserve the order of the TLD list. -/
theorem claim_C10_result_invariants (kw : String) (h : String → Bool)
    (r : String → Option Json) :
    (check_tlds_tool kw h r).1.available_count
        = (check_tlds_tool kw h r).1.available_domains.length
    ∧ (check_tlds_tool kw h r).1.taken_count
        = (check_tlds_tool kw h r).1.taken_domains.length
    ∧ (check_tlds_tool kw h r).1.available_count + (check_tlds_tool kw h r).1.taken_count
        = (check_tlds_tool kw h r).1.tlds_checked
    ∧ (∀ tld ∈ TOP_TLDS,
        (mkDomain kw tld ∈ (check_tlds_tool kw h r).1.available_domains
            ∧ mkDomain kw tld ∉ (check_tlds_tool kw h r).1.taken_domains)
        ∨ (mkDomain kw tld ∈ (check_tlds_tool kw h r).1.taken_domains
            ∧ mkDomain kw tld ∉ (check_tlds_tool kw h r).1.available_domains))
    ∧ List.Sublist (check_tlds_tool kw h r).1.available_domains (TOP_TLDS.map (mkDomain kw))
    ∧ List.Sublist (check_tlds_tool kw h r).1.taken_domains (TOP_TLDS.map (mkDomain kw)) := by
  have hav : (check_tlds_tool kw h r).1.available_domains
      = (TOP_TLDS.map (mkDomain kw)).filter (fun d => !h d && !optTruthy (r d)) := by
    show (tldsLoop kw h r TOP_TLDS).1 = _
    rw [tldsLoop_spec]
  have htk : (check_tlds_tool kw h r).1.taken_domains
      = (TOP_TLDS.map (mkDomain kw)).filter (fun d => h d || optTruthy (r d)) := by
    show (tldsLoop kw h r TOP_TLDS).2.1 = _
    rw [tldsLoop_spec]
  have hac : (check_tlds_tool kw h r).1.available_count
      = (check_tlds_tool kw h r).1.available_domains.length := rfl
  have htc : (check_tlds_tool kw h r).1.taken_count
      = (check_tlds_tool kw h r).1.taken_domains.length := rfl
  refine ⟨rfl, rfl, ?_, ?_, ?_, ?_⟩
  · rw [hac, htc, hav, htk]
    have := filter_compl_length (fun d => !h d && !optTruthy (r d))
      (fun d => h d || optTruthy (r d))
      (by intro a; cases hha : h a <;> cases hra : optTruthy (r a) <;> simp [hha, hra])
      (TOP_TLDS.map (mkDomain kw))
    rw [this]
    show (TOP_TLDS.map (mkDomain kw)).length = TOP_TLDS.length
    rw [List.length_map]
  · intro tld htld
    have hmem : mkDomain kw tld ∈ TOP_TLDS.map (mkDomain kw) :=
      List.mem_map_of_mem (mkDomain kw) htld
    rw [hav, htk]
    by_cases hd : (h (mkDomain kw tld) || optTruthy (r (mkDomain kw tld))) = true
    · right
      refine ⟨List.mem_filter.mpr ⟨hmem, hd⟩, ?_⟩
      intro hcontra
      have := (List.mem_filter.mp hcontra).2
      simp only [Bool.and_eq_true, Bool.not_eq_true'] at this
      simp [this.1, this.2] at hd
    · left
      simp only [Bool.or_eq_true, not_or] at hd
      refine ⟨List.mem_filter.mpr ⟨hmem, ?_⟩, ?_⟩
      · simp only [Bool.and_eq_true, Bool.not_eq_true']
        exact ⟨Bool.not_eq_true _ ▸ hd.1, Bool.not_eq_true _ ▸ hd.2⟩
      · intro hcontra
        have := (List.mem_filter.mp hcontra).2
        simp only [Bool.or_eq_true] at this
        rcases this with hh | hh
        · exact hd.1 hh
        · exact hd.2 hh
  · rw [hav]
    exact List.filter_sublist _
  · rw [htk]
    exact List.filter_sublist _

/-- C10 witness: concrete oracle outcome. -/
theorem claim_C10_result_invariants_witness :
    "x.com" ∈ (check_tlds_tool "x" (fun _ => true) (fun _ => none)).1.taken_domains
    ∧ "x.com" ∉ (check_tlds_tool "x" (fun _ => true) (fun _ => none)).1.available_domains := by
  have hc := (claim_C10_result_invariants "x" (fun _ => true) (fun _ => none)).2.2.2.1
    "com" (by decide)
  rcases hc with ⟨hin, hnot⟩ | ⟨hin, hnot⟩
  · exact absurd hin (by decide)
  · exact ⟨hin, hnot⟩

/-- C2 counterexample: with no DNS anywhere and an RDAP fetch returning the
(Python-falsy) empty JSON object for every domain, `x.com` is placed in
`available_domains` although the RDAP fetch returned data, not nothing. -/
theorem claim_C2_counterexample :
    "x.com" ∈ (check_tlds_tool "x" (fun _ => false)
        (fun _ => some (Json.obj []))).1.available_domains
    ∧ some (Json.obj []) ≠ (none : Option Json) := by
  refine ⟨by decide, by simp⟩

/-- C2 (amended): a DNS hit puts the domain in `taken_domains` without an
RDAP fetch for it; no DNS but a truthy RDAP result also puts it in
`taken_domains`; it lands in `available_domains` exactly when DNS fails
and the RDAP fetch returns nothing or a Python-falsy value. -/
theorem claim_C2_tld_branching (kw : String) (h : String → Bool)
    (r : String → Option Json) (tld : String) (htld : tld ∈ TOP_TLDS) :
    (h (mkDomain kw tld) = true →
        mkDomain kw tld ∈ (check_tlds_tool kw h r).1.taken_domains
        ∧ mkDomain kw tld ∉ (check_tlds_tool kw h r).2.2)
    ∧ (h (mkDomain kw tld) = false → optTruthy (r (mkDomain kw tld)) = true →
        mkDomain kw tld ∈ (check_tlds_tool kw h r).1.taken_domains)
    ∧ (mkDomain kw tld ∈ (check_tlds_tool kw h r).1.available_domains
        ↔ (h (mkDomain kw tld) = false ∧ optTruthy (r (mkDomain kw tld)) = false)) := by
  have hmem : mkDomain kw tld ∈ TOP_TLDS.map (mkDomain kw) :=
    List.mem_map_of_mem (mkDomain kw) htld
  have hav : (check_tlds_tool kw h r).1.available_domains
      = (TOP_TLDS.map (mkDomain kw)).filter (fun d => !h d && !optTruthy (r d)) := by
    show (tldsLoop kw h r TOP_TLDS).1 = _
    rw [tldsLoop_spec]
  have htk : (check_tlds_tool kw h r).1.taken_domains
      = (TOP_TLDS.map (mkDomain kw)).filter (fun d => h d || optTruthy (r d)) := by
    show (tldsLoop kw h r TOP_TLDS).2.1 = _
    rw [tldsLoop_spec]
  have hrc : (check_tlds_tool kw h r).2.2
      = (TOP_TLDS.map (mkDomain kw)).filter (fun d => !h d) := by
    show (tldsLoop kw h r TOP_TLDS).2.2.2 = _
    rw [tldsLoop_spec]
  refine ⟨?_, ?_, ?_⟩
  · intro hd
    rw [htk, hrc]
    constructor
    · exact List.mem_filter.mpr ⟨hmem, by simp [hd]⟩
    · intro hcontra
      have := (List.mem_filter.mp hcontra).2
      simp [hd] at this
  · intro hd hr
    rw [htk]
    exact List.mem_filter.mpr ⟨hmem, by simp [hd, hr]⟩
  · rw [hav]
    constructor
    · intro hin
      have := (List.mem_filter.mp hin).2
      simp only [Bool.and_eq_true, Bool.not_eq_true'] at this
      exact this
    · intro hc
      exact List.mem_filter.mpr ⟨hmem, by simp [hc.1, hc.2]⟩

/-- C2 witness: concrete keyword and oracles hitting all three branches. -/
theorem claim_C2_tld_branching_witness :
    "x.com" ∈ (check_tlds_tool "x" (fun d => decide (d = "x.com"))
        (fun d => if d = "x.net" then some (Json.obj [("a", Json.null)]) else none)).1.taken_domains := by
  have hc := claim_C2_tld_branching "x" (fun d => decide (d = "x.com"))
      (fun d => if d = "x.net" then some (Json.obj [("a", Json.null)]) else none)
      "com" (by decide)
  exact (hc.1 (by decide)).1

/-! ## Claim-side view of an RDAP payload (for C8/C9) -/

/-- The entities list of an RDAP payload, as the claim reads it (the same
`rdap_data.get("entities", [])` access, as a pure view). -/
def claimEntities (j : Json) : List Json :=
  match j with
  | .obj fields =>
    match (fields.lookup "entities").getD (.arr []) with
    | .arr l => l
    | _ => []
  | _ => []

/-- The events list of an RDAP payload, as the claim reads it. -/
def claimEvents (j : Json) : List Json :=
  match j with
  | .obj fields =>
    match (fields.lookup "events").getD (.arr []) with
    | .arr l => l
    | _ => []
  | _ => []

/-- `event.get("eventAction")` as a pure view of an event object. -/
def claimEvAction (ev : Json) : Json :=
  match ev with
  | .obj fields => (fields.lookup "eventAction").getD .null
  | _ => .null

/-- `event.get("eventDate", "Unknown")` as a pure view of an event object. -/
def claimEvDate (ev : Json) : Json :=
  match ev with
  | .obj fields => (fields.lookup "eventDate").getD (.str "Unknown")
  | _ => .str "Unknown"

/-- The claim's condition on a vCard entry: a list whose first element is
`"fn"` or `"org"` and which has more than 3 elements. -/
def claimEntryMatch (e : Json) : Prop :=
  ∃ xs : List Json, e = .arr xs
    ∧ (xs[0]? = some (.str "fn") ∨ xs[0]? = some (.str "org"))
    ∧ 3 < xs.length

/-- The claim's condition on an entity together with one of its vCard
entries: roles include `"registrar"`, `vcardArray` has a list as second
element, and `e` is a matching entry of that list. -/
def claimRegistrarEntry (ent e : Json) : Prop :=
  ∃ (fields : List (String × Json)) (roles vs entries : List Json),
    ent = .obj fields
    ∧ fields.lookup "roles" = some (.arr roles)
    ∧ Json.str "registrar" ∈ roles
    ∧ fields.lookup "vcardArray" = some (.arr vs)
    ∧ vs[1]? = some (.arr entries)
    ∧ e ∈ entries
    ∧ claimEntryMatch e

/-! Structural well-formedness of an RDAP payload, sufficient for the
extraction block to run without a Python exception: the payload is an
object; `entities` (when present) is a list of objects whose `roles`
(when present) is a list and whose `vcardArray` (when present) is a list
whose second element, when it is a list, holds only nonempty lists; and
`events` (when present) is a list of objects. -/

def entryWF : Json → Bool
  | .arr xs => !xs.isEmpty
  | _ => false

def entityWF : Json → Bool
  | .obj fields =>
    (match (fields.lookup "roles").getD (.arr []) with
     | .arr _ => true
     | _ => false)
    && (match (fields.lookup "vcardArray").getD (.arr []) with
        | .arr vs =>
          match vs[1]? with
          | some (Json.arr entries) => entries.all entryWF
          | some _ => true
          | none => true
        | _ => false)
  | _ => false

def eventWF : Json → Bool
  | .obj _ => true
  | _ => false

def rdapWF : Json → Bool
  | .obj fields =>
    (match (fields.lookup "entities").getD (.arr []) with
     | .arr ents => ents.all entityWF
     | _ => false)
    && (match (fields.lookup "events").getD (.arr []) with
        | .arr evs => evs.all eventWF
        | _ => false)
  | _ => false

/-! ## Lemmas about the extraction primitives -/

theorem eqStr_iff (j : Json) (s : String) : j.eqStr s = true ↔ j = .str s := by
  cases j <;> simp [Json.eqStr]

theorem any_eqStr (xs : List Json) (s : String) :
    xs.any (fun x => x.eqStr s) = true ↔ Json.str s ∈ xs := by
  rw [List.any_eq_true]
  constructor
  · rintro ⟨x, hx, hex⟩
    rw [eqStr_iff] at hex
    exact hex ▸ hx
  · intro hmem
    exact ⟨_, hmem, (eqStr_iff _ _).mpr rfl⟩

theorem lookup_of_getD_arr {fields : List (String × Json)} {key : String}
    {rs : List Json} (hne : rs ≠ [])
    (hg : (fields.lookup key).getD (Json.arr []) = Json.arr rs) :
    fields.lookup key = some (Json.arr rs) := by
  cases hl : fields.lookup key with
  | none =>
    rw [hl] at hg
    simp only [Option.getD_none] at hg
    exact absurd (Json.arr.inj hg).symm hne
  | some v =>
    rw [hl] at hg
    simp only [Option.getD_some] at hg
    rw [hg]

theorem dictGet_obj (fields : List (String × Json)) (key : String) (dflt : Json) :
    dictGet (Json.obj fields) key dflt = .ok ((fields.lookup key).getD dflt) := rfl

theorem pyIn_arr (s : String) (xs : List Json) :
    pyIn s (Json.arr xs) = .ok (xs.any (fun x => x.eqStr s)) := rfl

theorem pyLen_arr (xs : List Json) : pyLen (Json.arr xs) = .ok xs.length := rfl

theorem pyIndex_cons_zero (x : Json) (t : List Json) :
    pyIndex (Json.arr (x :: t)) 0 = .ok x := by
  simp [pyIndex]

theorem pyIndex_arr_some {xs : List Json} {i : Nat} {x : Json}
    (h : xs[i]? = some x) : pyIndex (Json.arr xs) i = .ok x := by
  simp [pyIndex, h]

theorem entryWF_dest (e : Json) (h : entryWF e = true) :
    ∃ (x : Json) (t : List Json), e = Json.arr (x :: t) := by
  cases e with
  | arr xs =>
    cases xs with
    | nil => simp [entryWF] at h
    | cons a t => exact ⟨a, t, rfl⟩
  | null => simp [entryWF] at h
  | bool b => simp [entryWF] at h
  | num n => simp [entryWF] at h
  | str s => simp [entryWF] at h
  | obj f => simp [entryWF] at h

/-- A matching entry of the head forces the eligibility condition. -/
theorem head_cond_of_match {x : Json} {t : List Json}
    (hm : claimEntryMatch (Json.arr (x :: t))) :
    (x.eqStr "fn" || x.eqStr "org") = true := by
  obtain ⟨xs, hxs, hor, _⟩ := hm
  have hxz := Json.arr.inj hxs
  rw [Bool.or_eq_true]
  rcases hor with h0 | h0
  · left
    rw [← hxz] at h0
    simp only [List.getElem?_cons_zero, Option.some.injEq] at h0
    rw [eqStr_iff]
    exact h0
  · right
    rw [← hxz] at h0
    simp only [List.getElem?_cons_zero, Option.some.injEq] at h0
    rw [eqStr_iff]
    exact h0

theorem entriesScan_no_match (entries : List Json) (hwf : entries.all entryWF = true)
    (hno : ∀ e ∈ entries, ¬ claimEntryMatch e) :
    entriesScan entries = .ok none := by
  induction entries with
  | nil => rfl
  | cons entry rest ih =>
    rw [List.all_cons, Bool.and_eq_true] at hwf
    obtain ⟨x, t, rfl⟩ := entryWF_dest entry hwf.1
    have hrest : entriesScan rest = .ok none :=
      ih hwf.2 (fun e he => hno e (List.mem_cons_of_mem _ he))
    by_cases hc : (x.eqStr "fn" || x.eqStr "org") = true
    · by_cases hl : (x :: t).length > 3
      · exfalso
        apply hno (Json.arr (x :: t)) (List.mem_cons_self _ _)
        refine ⟨x :: t, rfl, ?_, hl⟩
        rw [Bool.or_eq_true] at hc
        rcases hc with hfn | horg
        · exact Or.inl (by rw [(eqStr_iff _ _).mp hfn]; exact List.getElem?_cons_zero)
        · exact Or.inr (by rw [(eqStr_iff _ _).mp horg]; exact List.getElem?_cons_zero)
      · simp only [entriesScan, pyIndex_cons_zero]
        rw [if_pos hc]
        simp only [pyLen_arr]
        rw [if_neg hl]
        exact hrest
    · simp only [entriesScan, pyIndex_cons_zero]
      rw [if_neg hc]
      exact hrest

theorem entriesScan_found (entries : List Json) (hwf : entries.all entryWF = true)
    (hex : ∃ e ∈ entries, claimEntryMatch e) :
    ∃ (xs : List Json) (v : Json), Json.arr xs ∈ entries ∧ claimEntryMatch (Json.arr xs)
      ∧ xs[3]? = some v ∧ entriesScan entries = .ok (some v) := by
  induction entries with
  | nil =>
    obtain ⟨e, he, _⟩ := hex
    exact absurd he (List.not_mem_nil e)
  | cons entry rest ih =>
    rw [List.all_cons, Bool.and_eq_true] at hwf
    obtain ⟨x, t, rfl⟩ := entryWF_dest entry hwf.1
    by_cases hc : (x.eqStr "fn" || x.eqStr "org") = true
    · by_cases hl : (x :: t).length > 3
      · have h3 : 3 < (x :: t).length := hl
        have hv : ((x :: t) : List Json)[3]? = some ((x :: t)[3]) :=
          List.getElem?_eq_getElem h3
        refine ⟨x :: t, (x :: t)[3], List.mem_cons_self _ _, ?_, hv, ?_⟩
        · refine ⟨x :: t, rfl, ?_, hl⟩
          rw [Bool.or_eq_true] at hc
          rcases hc with hfn | horg
          · exact Or.inl (by rw [(eqStr_iff _ _).mp hfn]; exact List.getElem?_cons_zero)
          · exact Or.inr (by rw [(eqStr_iff _ _).mp horg]; exact List.getElem?_cons_zero)
        · simp only [entriesScan, pyIndex_cons_zero]
          rw [if_pos hc]
          simp only [pyLen_arr]
          rw [if_pos hl, pyIndex_arr_some hv]
      · have hex' : ∃ e ∈ rest, claimEntryMatch e := by
          obtain ⟨e, he, hm⟩ := hex
          rcases List.mem_cons.mp he with rfl | hr
          · obtain ⟨xs, hxs, _, hlen⟩ := hm
            rw [← Json.arr.inj hxs] at hlen
            exact absurd hlen hl
          · exact ⟨e, hr, hm⟩
        obtain ⟨xs, v, hmem, hcm, hv, hscan⟩ := ih hwf.2 hex'
        refine ⟨xs, v, List.mem_cons_of_mem _ hmem, hcm, hv, ?_⟩
        simp only [entriesScan, pyIndex_cons_zero]
        rw [if_pos hc]
        simp only [pyLen_arr]
        rw [if_neg hl]
        exact hscan
    · have hex' : ∃ e ∈ rest, claimEntryMatch e := by
        obtain ⟨e, he, hm⟩ := hex
        rcases List.mem_cons.mp he with rfl | hr
        · exact absurd (head_cond_of_match hm) hc
        · exact ⟨e, hr, hm⟩
      obtain ⟨xs, v, hmem, hcm, hv, hscan⟩ := ih hwf.2 hex'
      refine ⟨xs, v, List.mem_cons_of_mem _ hmem, hcm, hv, ?_⟩
      simp only [entriesScan, pyIndex_cons_zero]
      rw [if_neg hc]
      exact hscan

theorem entriesScan_ok (entries : List Json) (hwf : entries.all entryWF = true) :
    ∃ o, entriesScan entries = .ok o := by
  by_cases hex : ∃ e ∈ entries, claimEntryMatch e
  · obtain ⟨_, v, _, _, _, hscan⟩ := entriesScan_found entries hwf hex
    exact ⟨some v, hscan⟩
  · exact ⟨none, entriesScan_no_match entries hwf (fun e he hm => hex ⟨e, he, hm⟩)⟩

theorem entityWF_dest (ent : Json) (h : entityWF ent = true) :
    ∃ (fields : List (String × Json)) (rs vs : List Json),
      ent = Json.obj fields
      ∧ (fields.lookup "roles").getD (Json.arr []) = Json.arr rs
      ∧ (fields.lookup "vcardArray").getD (Json.arr []) = Json.arr vs := by
  cases ent with
  | obj fields =>
    simp only [entityWF, Bool.and_eq_true] at h
    obtain ⟨h1, h2⟩ := h
    rcases hr : (fields.lookup "roles").getD (Json.arr []) with _ | b | n | s | rs | f
    · rw [hr] at h1; simp at h1
    · rw [hr] at h1; simp at h1
    · rw [hr] at h1; simp at h1
    · rw [hr] at h1; simp at h1
    · rcases hv : (fields.lookup "vcardArray").getD (Json.arr []) with _ | b | n | s | vs | f
      · rw [hv] at h2; simp at h2
      · rw [hv] at h2; simp at h2
      · rw [hv] at h2; simp at h2
      · rw [hv] at h2; simp at h2
      · exact ⟨fields, rs, vs, rfl, hr, hv⟩
      · rw [hv] at h2; simp at h2
    · rw [hr] at h1; simp at h1
  | null => simp [entityWF] at h
  | bool b => simp [entityWF] at h
  | num n => simp [entityWF] at h
  | str s => simp [entityWF] at h
  | arr xs => simp [entityWF] at h

/-- Under well-formedness, the entries below `vcardArray[1]` are themselves
well formed. -/
theorem entityWF_entries {fields : List (String × Json)} {vs entries : List Json}
    (hwf : entityWF (Json.obj fields) = true)
    (hv2 : (fields.lookup "vcardArray").getD (Json.arr []) = Json.arr vs)
    (hv1 : vs[1]? = some (Json.arr entries)) :
    entries.all entryWF = true := by
  simp only [entityWF, Bool.and_eq_true] at hwf
  have h2 := hwf.2
  rw [hv2] at h2
  simp at h2
  rw [hv1] at h2
  simpa using h2

theorem vs_ne_nil_of_snd {vs : List Json} {x : Json} (h : vs[1]? = some x) :
    1 < vs.length := by
  by_contra hle
  push_neg at hle
  rw [List.getElem?_eq_none hle] at h
  cases h

theorem entityStep_no_match (ent acc : Json) (hwf : entityWF ent = true)
    (hno : ∀ e, ¬ claimRegistrarEntry ent e) :
    entityStep ent acc = .ok acc := by
  obtain ⟨fields, rs, vs, rfl, hr, hv⟩ := entityWF_dest ent hwf
  by_cases hreg : Json.str "registrar" ∈ rs
  · have hany : rs.any (fun x => x.eqStr "registrar") = true := (any_eqStr _ _).mpr hreg
    have hrs : fields.lookup "roles" = some (Json.arr rs) :=
      lookup_of_getD_arr (by intro hnil; rw [hnil] at hreg; cases hreg) hr
    rcases hv1 : vs[1]? with _ | x
    · have hlen : ¬ (vs.length > 1) := by
        intro hgt
        rw [List.getElem?_eq_getElem hgt] at hv1
        cases hv1
      simp only [entityStep, dictGet_obj, hr, pyIn_arr]
      rw [if_pos hany]
      simp only [hv, pyLen_arr]
      rw [if_neg hlen]
    · have hlen : vs.length > 1 := vs_ne_nil_of_snd hv1
      have hvs : fields.lookup "vcardArray" = some (Json.arr vs) :=
        lookup_of_getD_arr (by intro hnil; rw [hnil] at hv1; cases hv1) hv
      simp only [entityStep, dictGet_obj, hr, pyIn_arr]
      rw [if_pos hany]
      simp only [hv, pyLen_arr]
      rw [if_pos hlen, pyIndex_arr_some hv1]
      rcases x with _ | b | n | s | entries | f
      · rfl
      · rfl
      · rfl
      · rfl
      · have hscan : entriesScan entries = .ok none := by
          apply entriesScan_no_match entries (entityWF_entries hwf hv hv1)
          intro e he hm
          exact hno e ⟨fields, rs, vs, entries, rfl, hrs, hreg, hvs, hv1, he, hm⟩
        simp [hscan]
      · rfl
  · have hany : ¬ (rs.any (fun x => x.eqStr "registrar") = true) := by
      intro hh
      exact hreg ((any_eqStr _ _).mp hh)
    simp only [entityStep, dictGet_obj, hr, pyIn_arr]
    rw [if_neg hany]

theorem entityStep_found (ent acc : Json) (hwf : entityWF ent = true)
    (hex : ∃ e, claimRegistrarEntry ent e) :
    ∃ (xs : List Json) (v : Json), claimRegistrarEntry ent (Json.arr xs)
      ∧ xs[3]? = some v ∧ entityStep ent acc = .ok v := by
  obtain ⟨e, fields, rs, vs, entries, hentobj, hrs, hreg, hvs, hv1, he, hm⟩ := hex
  subst hentobj
  have hr2 : (fields.lookup "roles").getD (Json.arr []) = Json.arr rs := by
    rw [hrs, Option.getD_some]
  have hv2 : (fields.lookup "vcardArray").getD (Json.arr []) = Json.arr vs := by
    rw [hvs, Option.getD_some]
  have hany : rs.any (fun x => x.eqStr "registrar") = true := (any_eqStr _ _).mpr hreg
  have hlen : vs.length > 1 := vs_ne_nil_of_snd hv1
  have hewf : entries.all entryWF = true := entityWF_entries hwf hv2 hv1
  obtain ⟨xs, v, hmem, hcm, hv3, hscan⟩ :=
    entriesScan_found entries hewf ⟨e, he, hm⟩
  refine ⟨xs, v, ⟨fields, rs, vs, entries, rfl, hrs, hreg, hvs, hv1, hmem, hcm⟩, hv3, ?_⟩
  simp only [entityStep, dictGet_obj, hr2, pyIn_arr]
  rw [if_pos hany]
  simp only [hv2, pyLen_arr]
  rw [if_pos hlen, pyIndex_arr_some hv1]
  simp [hscan]

theorem entityStep_ok (ent acc : Json) (hwf : entityWF ent = true) :
    ∃ v, entityStep ent acc = .ok v := by
  by_cases hex : ∃ e, claimRegistrarEntry ent e
  · obtain ⟨_, v, _, _, hstep⟩ := entityStep_found ent acc hwf hex
    exact ⟨v, hstep⟩
  · exact ⟨acc, entityStep_no_match ent acc hwf (fun e hc => hex ⟨e, hc⟩)⟩

theorem registrarLoop_no_match (l : List Json)
    (hwf : l.all entityWF = true)
    (hno : ∀ ent ∈ l, ∀ e, ¬ claimRegistrarEntry ent e) :
    ∀ acc : Json, registrarLoop l acc = .ok acc := by
  induction l with
  | nil => intro acc; rfl
  | cons ent rest ih =>
    intro acc
    rw [List.all_cons, Bool.and_eq_true] at hwf
    have hstep : entityStep ent acc = .ok acc :=
      entityStep_no_match ent acc hwf.1 (hno ent (List.mem_cons_self _ _))
    simp only [registrarLoop, hstep]
    exact ih hwf.2 (fun ent2 hm => hno ent2 (List.mem_cons_of_mem _ hm)) acc

theorem registrarLoop_found (l : List Json) (hwf : l.all entityWF = true)
    (hex : ∃ ent ∈ l, ∃ e, claimRegistrarEntry ent e) :
    ∀ acc : Json, ∃ (ent : Json) (xs : List Json) (v : Json),
      ent ∈ l ∧ claimRegistrarEntry ent (Json.arr xs)
      ∧ xs[3]? = some v ∧ registrarLoop l acc = .ok v := by
  induction l with
  | nil =>
    obtain ⟨ent, hm, _⟩ := hex
    exact absurd hm (List.not_mem_nil ent)
  | cons ent0 rest ih =>
    intro acc
    rw [List.all_cons, Bool.and_eq_true] at hwf
    by_cases h0 : ∃ e, claimRegistrarEntry ent0 e
    · obtain ⟨xs, v, hce, hv3, hstep⟩ := entityStep_found ent0 acc hwf.1 h0
      by_cases hrest : ∃ ent ∈ rest, ∃ e, claimRegistrarEntry ent e
      · obtain ⟨ent', xs', v', hmem', hce', hv3', hloop'⟩ := ih hwf.2 hrest v
        refine ⟨ent', xs', v', List.mem_cons_of_mem _ hmem', hce', hv3', ?_⟩
        simp only [registrarLoop, hstep]
        exact hloop'
      · have hloop : registrarLoop rest v = .ok v :=
          registrarLoop_no_match rest hwf.2
            (fun ent hm e hc => hrest ⟨ent, hm, e, hc⟩) v
        refine ⟨ent0, xs, v, List.mem_cons_self _ _, hce, hv3, ?_⟩
        simp only [registrarLoop, hstep]
        exact hloop
    · have hstep : entityStep ent0 acc = .ok acc :=
        entityStep_no_match ent0 acc hwf.1 (fun e hc => h0 ⟨e, hc⟩)
      have hrest : ∃ ent ∈ rest, ∃ e, claimRegistrarEntry ent e := by
        obtain ⟨ent, hm, e, hc⟩ := hex
        rcases List.mem_cons.mp hm with rfl | hr
        · exact absurd ⟨e, hc⟩ h0
        · exact ⟨ent, hr, e, hc⟩
      obtain ⟨ent', xs', v', hmem', hce', hv3', hloop'⟩ := ih hwf.2 hrest acc
      refine ⟨ent', xs', v', List.mem_cons_of_mem _ hmem', hce', hv3', ?_⟩
      simp only [registrarLoop, hstep]
      exact hloop'

theorem registrarLoop_ok (l : List Json) (acc : Json) (hwf : l.all entityWF = true) :
    ∃ v, registrarLoop l acc = .ok v := by
  by_cases hex : ∃ ent ∈ l, ∃ e, claimRegistrarEntry ent e
  · obtain ⟨_, _, v, _, _, _, hloop⟩ := registrarLoop_found l hwf hex acc
    exact ⟨v, hloop⟩
  · exact ⟨acc, registrarLoop_no_match l hwf
      (fun ent hm e hc => hex ⟨ent, hm, e, hc⟩) acc⟩

theorem eqStr_unique {a : Json} {s1 s2 : String} (h : a.eqStr s1 = true)
    (hne : s1 ≠ s2) : ¬ (a.eqStr s2 = true) := by
  rw [(eqStr_iff _ _).mp h]
  intro hc
  rw [eqStr_iff] at hc
  exact hne (Json.str.inj hc.symm).symm

theorem eventWF_dest (ev : Json) (h : eventWF ev = true) :
    ∃ fields : List (String × Json), ev = Json.obj fields := by
  cases ev with
  | obj fields => exact ⟨fields, rfl⟩
  | null => simp [eventWF] at h
  | bool b => simp [eventWF] at h
  | num n => simp [eventWF] at h
  | str s => simp [eventWF] at h
  | arr xs => simp [eventWF] at h

theorem eventStep_obj (fields : List (String × Json)) (rd ed : Json) :
    eventStep (Json.obj fields) rd ed = .ok (
      if (claimEvAction (Json.obj fields)).eqStr "registration"
      then (claimEvDate (Json.obj fields), ed)
      else if (claimEvAction (Json.obj fields)).eqStr "expiration"
      then (rd, claimEvDate (Json.obj fields))
      else (rd, ed)) := by
  simp only [eventStep, dictGet_obj, claimEvAction, claimEvDate]
  by_cases h1 : (((fields.lookup "eventAction").getD Json.null).eqStr "registration") = true
  · rw [if_pos h1, if_pos h1]
  · rw [if_neg h1, if_neg h1]
    by_cases h2 : (((fields.lookup "eventAction").getD Json.null).eqStr "expiration") = true
    · rw [if_pos h2, if_pos h2]
    · rw [if_neg h2, if_neg h2]

theorem datesLoop_ok (l : List Json) (hwf : l.all eventWF = true) :
    ∀ rd ed : Json, ∃ p, datesLoop l rd ed = .ok p := by
  induction l with
  | nil => intro rd ed; exact ⟨(rd, ed), rfl⟩
  | cons ev rest ih =>
    intro rd ed
    rw [List.all_cons, Bool.and_eq_true] at hwf
    obtain ⟨fields, rfl⟩ := eventWF_dest ev hwf.1
    obtain ⟨q, hq⟩ : ∃ q, eventStep (Json.obj fields) rd ed = .ok q :=
      ⟨_, eventStep_obj fields rd ed⟩
    obtain ⟨p, hp⟩ := ih hwf.2 q.1 q.2
    refine ⟨p, ?_⟩
    simp only [datesLoop, hq]
    exact hp

theorem datesLoop_reg_none (l : List Json) (hwf : l.all eventWF = true)
    (hno : ∀ ev ∈ l, ¬ ((claimEvAction ev).eqStr "registration" = true)) :
    ∀ rd ed : Json, ∃ ed', datesLoop l rd ed = .ok (rd, ed') := by
  induction l with
  | nil => intro rd ed; exact ⟨ed, rfl⟩
  | cons ev rest ih =>
    intro rd ed
    rw [List.all_cons, Bool.and_eq_true] at hwf
    obtain ⟨fields, rfl⟩ := eventWF_dest ev hwf.1
    have hstep := eventStep_obj fields rd ed
    rw [if_neg (hno _ (List.mem_cons_self _ _))] at hstep
    have hno' : ∀ ev ∈ rest, ¬ ((claimEvAction ev).eqStr "registration" = true) :=
      fun ev hm => hno ev (List.mem_cons_of_mem _ hm)
    by_cases h2 : ((claimEvAction (Json.obj fields)).eqStr "expiration") = true
    · rw [if_pos h2] at hstep
      obtain ⟨ed', hed⟩ := ih hwf.2 hno' rd (claimEvDate (Json.obj fields))
      refine ⟨ed', ?_⟩
      simp only [datesLoop, hstep]
      exact hed
    · rw [if_neg h2] at hstep
      obtain ⟨ed', hed⟩ := ih hwf.2 hno' rd ed
      refine ⟨ed', ?_⟩
      simp only [datesLoop, hstep]
      exact hed

theorem datesLoop_exp_none (l : List Json) (hwf : l.all eventWF = true)
    (hno : ∀ ev ∈ l, ¬ ((claimEvAction ev).eqStr "expiration" = true)) :
    ∀ rd ed : Json, ∃ rd', datesLoop l rd ed = .ok (rd', ed) := by
  induction l with
  | nil => intro rd ed; exact ⟨rd, rfl⟩
  | cons ev rest ih =>
    intro rd ed
    rw [List.all_cons, Bool.and_eq_true] at hwf
    obtain ⟨fields, rfl⟩ := eventWF_dest ev hwf.1
    have hstep := eventStep_obj fields rd ed
    rw [if_neg (hno _ (List.mem_cons_self _ _))] at hstep
    have hno' : ∀ ev ∈ rest, ¬ ((claimEvAction ev).eqStr "expiration" = true) :=
      fun ev hm => hno ev (List.mem_cons_of_mem _ hm)
    by_cases h1 : ((claimEvAction (Json.obj fields)).eqStr "registration") = true
    · rw [if_pos h1] at hstep
      obtain ⟨rd', hrd⟩ := ih hwf.2 hno' (claimEvDate (Json.obj fields)) ed
      refine ⟨rd', ?_⟩
      simp only [datesLoop, hstep]
      exact hrd
    · rw [if_neg h1] at hstep
      obtain ⟨rd', hrd⟩ := ih hwf.2 hno' rd ed
      refine ⟨rd', ?_⟩
      simp only [datesLoop, hstep]
      exact hrd

theorem datesLoop_reg_found (l : List Json) (hwf : l.all eventWF = true)
    (hex : ∃ ev ∈ l, (claimEvAction ev).eqStr "registration" = true) :
    ∀ rd ed : Json, ∃ (ev ed' : Json), ev ∈ l
      ∧ (claimEvAction ev).eqStr "registration" = true
      ∧ datesLoop l rd ed = .ok (claimEvDate ev, ed') := by
  induction l with
  | nil =>
    obtain ⟨ev, hm, _⟩ := hex
    exact absurd hm (List.not_mem_nil ev)
  | cons ev0 rest ih =>
    intro rd ed
    rw [List.all_cons, Bool.and_eq_true] at hwf
    obtain ⟨fields, rfl⟩ := eventWF_dest ev0 hwf.1
    have hstep := eventStep_obj fields rd ed
    by_cases h1 : ((claimEvAction (Json.obj fields)).eqStr "registration") = true
    · rw [if_pos h1] at hstep
      by_cases hrest : ∃ ev ∈ rest, (claimEvAction ev).eqStr "registration" = true
      · obtain ⟨ev', ed', hm', ha', hd'⟩ := ih hwf.2 hrest (claimEvDate (Json.obj fields)) ed
        refine ⟨ev', ed', List.mem_cons_of_mem _ hm', ha', ?_⟩
        simp only [datesLoop, hstep]
        exact hd'
      · obtain ⟨ed', hd'⟩ := datesLoop_reg_none rest hwf.2
          (fun ev hm hc => hrest ⟨ev, hm, hc⟩) (claimEvDate (Json.obj fields)) ed
        refine ⟨Json.obj fields, ed', List.mem_cons_self _ _, h1, ?_⟩
        simp only [datesLoop, hstep]
        exact hd'
    · have hrest : ∃ ev ∈ rest, (claimEvAction ev).eqStr "registration" = true := by
        obtain ⟨ev, hm, hc⟩ := hex
        rcases List.mem_cons.mp hm with rfl | hr
        · exact absurd hc h1
        · exact ⟨ev, hr, hc⟩
      rw [if_neg h1] at hstep
      by_cases h2 : ((claimEvAction (Json.obj fields)).eqStr "expiration") = true
      · rw [if_pos h2] at hstep
        obtain ⟨ev', ed', hm', ha', hd'⟩ := ih hwf.2 hrest rd (claimEvDate (Json.obj fields))
        refine ⟨ev', ed', List.mem_cons_of_mem _ hm', ha', ?_⟩
        simp only [datesLoop, hstep]
        exact hd'
      · rw [if_neg h2] at hstep
        obtain ⟨ev', ed', hm', ha', hd'⟩ := ih hwf.2 hrest rd ed
        refine ⟨ev', ed', List.mem_cons_of_mem _ hm', ha', ?_⟩
        simp only [datesLoop, hstep]
        exact hd'

theorem datesLoop_exp_found (l : List Json) (hwf : l.all eventWF = true)
    (hex : ∃ ev ∈ l, (claimEvAction ev).eqStr "expiration" = true) :
    ∀ rd ed : Json, ∃ (ev rd' : Json), ev ∈ l
      ∧ (claimEvAction ev).eqStr "expiration" = true
      ∧ datesLoop l rd ed = .ok (rd', claimEvDate ev) := by
  induction l with
  | nil =>
    obtain ⟨ev, hm, _⟩ := hex
    exact absurd hm (List.not_mem_nil ev)
  | cons ev0 rest ih =>
    intro rd ed
    rw [List.all_cons, Bool.and_eq_true] at hwf
    obtain ⟨fields, rfl⟩ := eventWF_dest ev0 hwf.1
    have hstep := eventStep_obj fields rd ed
    by_cases h2 : ((claimEvAction (Json.obj fields)).eqStr "expiration") = true
    · have h1 : ¬ ((claimEvAction (Json.obj fields)).eqStr "registration" = true) :=
        eqStr_unique h2 (by decide)
      rw [if_neg h1, if_pos h2] at hstep
      by_cases hrest : ∃ ev ∈ rest, (claimEvAction ev).eqStr "expiration" = true
      · obtain ⟨ev', rd', hm', ha', hd'⟩ := ih hwf.2 hrest rd (claimEvDate (Json.obj fields))
        refine ⟨ev', rd', List.mem_cons_of_mem _ hm', ha', ?_⟩
        simp only [datesLoop, hstep]
        exact hd'
      · obtain ⟨rd', hd'⟩ := datesLoop_exp_none rest hwf.2
          (fun ev hm hc => hrest ⟨ev, hm, hc⟩) rd (claimEvDate (Json.obj fields))
        refine ⟨Json.obj fields, rd', List.mem_cons_self _ _, h2, ?_⟩
        simp only [datesLoop, hstep]
        exact hd'
    · have hrest : ∃ ev ∈ rest, (claimEvAction ev).eqStr "expiration" = true := by
        obtain ⟨ev, hm, hc⟩ := hex
        rcases List.mem_cons.mp hm with rfl | hr
        · exact absurd hc h2
        · exact ⟨ev, hr, hc⟩
      by_cases h1 : ((claimEvAction (Json.obj fields)).eqStr "registration") = true
      · rw [if_pos h1] at hstep
        obtain ⟨ev', rd', hm', ha', hd'⟩ := ih hwf.2 hrest (claimEvDate (Json.obj fields)) ed
        refine ⟨ev', rd', List.mem_cons_of_mem _ hm', ha', ?_⟩
        simp only [datesLoop, hstep]
        exact hd'
      · rw [if_neg h1, if_neg h2] at hstep
        obtain ⟨ev', rd', hm', ha', hd'⟩ := ih hwf.2 hrest rd ed
        refine ⟨ev', rd', List.mem_cons_of_mem _ hm', ha', ?_⟩
        simp only [datesLoop, hstep]
        exact hd'

theorem rdapWF_dest (j : Json) (h : rdapWF j = true) :
    ∃ fields : List (String × Json), j = Json.obj fields
      ∧ (fields.lookup "entities").getD (Json.arr []) = Json.arr (claimEntities j)
      ∧ (claimEntities j).all entityWF = true
      ∧ (fields.lookup "events").getD (Json.arr []) = Json.arr (claimEvents j)
      ∧ (claimEvents j).all eventWF = true := by
  cases j with
  | obj fields =>
    simp only [rdapWF, Bool.and_eq_true] at h
    obtain ⟨h1, h2⟩ := h
    rcases he : (fields.lookup "entities").getD (Json.arr []) with _ | b | n | s | ents | f
    · rw [he] at h1; simp at h1
    · rw [he] at h1; simp at h1
    · rw [he] at h1; simp at h1
    · rw [he] at h1; simp at h1
    · rcases hv : (fields.lookup "events").getD (Json.arr []) with _ | b | n | s | evs | f
      · rw [hv] at h2; simp at h2
      · rw [hv] at h2; simp at h2
      · rw [hv] at h2; simp at h2
      · rw [hv] at h2; simp at h2
      · rw [he] at h1
        rw [hv] at h2
        have h1e : ents.all entityWF = true := h1
        have h2e : evs.all eventWF = true := h2
        have hce : claimEntities (Json.obj fields) = ents := by
          simp [claimEntities, he]
        have hcv : claimEvents (Json.obj fields) = evs := by
          simp [claimEvents, hv]
        refine ⟨fields, rfl, ?_, ?_, ?_, ?_⟩
        · rw [hce]; exact he
        · rw [hce]; exact h1e
        · rw [hcv]; exact hv
        · rw [hcv]; exact h2e
      · rw [hv] at h2; simp at h2
    · rw [he] at h1; simp at h1
  | null => simp [rdapWF] at h
  | bool b => simp [rdapWF] at h
  | num n => simp [rdapWF] at h
  | str s => simp [rdapWF] at h
  | arr xs => simp [rdapWF] at h

theorem extract_components (j : Json) (hwf : rdapWF j = true)
    (reg rd ed : Json) (hE : extractRdapInfo j = .ok (reg, rd, ed)) :
    registrarLoop (claimEntities j) (.str "Unknown") = .ok reg
    ∧ datesLoop (claimEvents j) (.str "Unknown") (.str "Unknown") = .ok (rd, ed) := by
  obtain ⟨fields, rfl, hge, hentwf, hgev, hevwf⟩ := rdapWF_dest j hwf
  simp only [extractRdapInfo, dictGet_obj, hge, hgev, pyIter] at hE
  rcases hR : registrarLoop (claimEntities (Json.obj fields)) (Json.str "Unknown")
    with e | regv
  · rw [hR] at hE
    simp at hE
  · rw [hR] at hE
    rcases hD : datesLoop (claimEvents (Json.obj fields)) (Json.str "Unknown")
      (Json.str "Unknown") with e | dates
    · rw [hD] at hE
      simp at hE
    · rw [hD] at hE
      simp only [Except.ok.injEq, Prod.mk.injEq] at hE
      obtain ⟨rfl, h2, h3⟩ := hE
      refine ⟨rfl, ?_⟩
      rw [← h2, ← h3, Prod.mk.eta]

/-- The vCard entry `[]` is well-formed JSON, but `entry[0]` on it raises
IndexError inside the extraction block. -/
def badRdap : Json :=
  .obj [("entities", .arr [.obj [("roles", .arr [.str "registrar"]),
    ("vcardArray", .arr [.null, .arr [.arr []]])]])]

/-- C9 counterexample: a well-formed JSON payload (an entity with
registrar role whose vcardArray second element contains the empty list)
on which the extraction raises IndexError, so `check_domain_tool` does
not return a result. -/
theorem claim_C9_counterexample :
    check_domain_tool "example.com" true (some badRdap) =
      Except.error "IndexError" := rfl

/-- C9 (amended): for every JSON payload whose `entities` is a list of
objects with list-shaped roles and vcardArray, every vCard entry below
`vcardArray[1]` a nonempty list, and whose `events` is a list of objects,
the extraction completes and `check_domain_tool` returns a result without
error. -/
theorem claim_C9_wf_extraction (domain : String) (j : Json)
    (hwf : rdapWF j = true) :
    ∃ r, check_domain_tool domain true (some j) = Except.ok r := by
  by_cases ht : pyTruthy j = true
  · obtain ⟨fields, rfl, hge, hentwf, hgev, hevwf⟩ := rdapWF_dest j hwf
    obtain ⟨regv, hR⟩ := registrarLoop_ok (claimEntities (Json.obj fields))
      (Json.str "Unknown") hentwf
    obtain ⟨p, hD⟩ := datesLoop_ok (claimEvents (Json.obj fields)) hevwf
      (Json.str "Unknown") (Json.str "Unknown")
    have hEx : extractRdapInfo (Json.obj fields) = .ok (regv, p.1, p.2) := by
      simp only [extractRdapInfo, dictGet_obj, hge, hgev, pyIter, hR, hD]
    refine ⟨registeredFull domain (regv, p.1, p.2), ?_⟩
    rw [cdt_true_some, if_pos ht, hEx]
  · refine ⟨registeredNoRdap domain, ?_⟩
    rw [cdt_true_some, if_neg ht]

/-- C9 witness: a concrete well-formed payload. -/
theorem claim_C9_wf_extraction_witness :
    ∃ r, check_domain_tool "example.com" true (some (Json.obj []))
      = Except.ok r :=
  claim_C9_wf_extraction "example.com" (Json.obj []) rfl

/-- C8: when DNS records exist and the RDAP payload is used, the reported
registrar is element 3 of a matching vCard entry (`fn`/`org` head, more
than 3 elements) of an entity whose roles include "registrar", or
"Unknown" when no such entity and entry exist; the two dates are the
eventDate of a registration / expiration event, or "Unknown" when absent. -/
theorem claim_C8_metadata_extraction (domain : String) (rdap : Json)
    (r : DomainResult) (hwf : rdapWF rdap = true)
    (hexec : check_domain_tool domain true (some rdap) = Except.ok r) :
    ((¬ ∃ ent ∈ claimEntities rdap, ∃ e, claimRegistrarEntry ent e) →
        r.registrar = Json.str "Unknown")
    ∧ ((∃ ent ∈ claimEntities rdap, ∃ e, claimRegistrarEntry ent e) →
        ∃ ent ∈ claimEntities rdap, ∃ xs : List Json,
          claimRegistrarEntry ent (Json.arr xs) ∧ xs[3]? = some r.registrar)
    ∧ ((¬ ∃ ev ∈ claimEvents rdap, (claimEvAction ev).eqStr "registration" = true) →
        r.registration_date = Json.str "Unknown")
    ∧ ((∃ ev ∈ claimEvents rdap, (claimEvAction ev).eqStr "registration" = true) →
        ∃ ev ∈ claimEvents rdap, (claimEvAction ev).eqStr "registration" = true
          ∧ r.registration_date = claimEvDate ev)
    ∧ ((¬ ∃ ev ∈ claimEvents rdap, (claimEvAction ev).eqStr "expiration" = true) →
        r.expiration_date = Json.str "Unknown")
    ∧ ((∃ ev ∈ claimEvents rdap, (claimEvAction ev).eqStr "expiration" = true) →
        ∃ ev ∈ claimEvents rdap, (claimEvAction ev).eqStr "expiration" = true
          ∧ r.expiration_date = claimEvDate ev) := by
  by_cases ht : pyTruthy rdap = true
  · rw [cdt_true_some, if_pos ht] at hexec
    rcases hE : extractRdapInfo rdap with e | info
    · rw [hE] at hexec
      exact absurd hexec (by simp)
    · obtain ⟨reg, rd, ed⟩ := info
      rw [hE] at hexec
      obtain rfl := Except.ok.inj hexec
      have hentwf : (claimEntities rdap).all entityWF = true := by
        obtain ⟨fields, heq, _, hw, _, _⟩ := rdapWF_dest rdap hwf
        exact hw
      have hevwf : (claimEvents rdap).all eventWF = true := by
        obtain ⟨fields, heq, _, _, _, hw⟩ := rdapWF_dest rdap hwf
        exact hw
      have hcomp := extract_components rdap hwf reg rd ed hE
      refine ⟨?_, ?_, ?_, ?_, ?_, ?_⟩
      · intro hno
        have hloop := registrarLoop_no_match (claimEntities rdap) hentwf
          (fun ent hm e hc => hno ⟨ent, hm, e, hc⟩) (Json.str "Unknown")
        exact (Except.ok.inj (hloop.symm.trans hcomp.1)).symm
      · intro hex
        obtain ⟨ent, xs, v, hm, hce, hv3, hloop⟩ :=
          registrarLoop_found (claimEntities rdap) hentwf hex (Json.str "Unknown")
        have hvr : v = reg := Except.ok.inj (hloop.symm.trans hcomp.1)
        refine ⟨ent, hm, xs, hce, ?_⟩
        rw [show (registeredFull domain (reg, rd, ed)).registrar = reg from rfl, ← hvr]
        exact hv3
      · intro hno
        obtain ⟨ed', hd⟩ := datesLoop_reg_none (claimEvents rdap) hevwf
          (fun ev hm hc => hno ⟨ev, hm, hc⟩) (Json.str "Unknown") (Json.str "Unknown")
        have := Except.ok.inj (hd.symm.trans hcomp.2)
        exact (congrArg Prod.fst this).symm
      · intro hex
        obtain ⟨ev, ed', hm, ha, hd⟩ := datesLoop_reg_found (claimEvents rdap) hevwf
          hex (Json.str "Unknown") (Json.str "Unknown")
        have := Except.ok.inj (hd.symm.trans hcomp.2)
        exact ⟨ev, hm, ha, (congrArg Prod.fst this).symm⟩
      · intro hno
        obtain ⟨rd', hd⟩ := datesLoop_exp_none (claimEvents rdap) hevwf
          (fun ev hm hc => hno ⟨ev, hm, hc⟩) (Json.str "Unknown") (Json.str "Unknown")
        have := Except.ok.inj (hd.symm.trans hcomp.2)
        exact (congrArg Prod.snd this).symm
      · intro hex
        obtain ⟨ev, rd', hm, ha, hd⟩ := datesLoop_exp_found (claimEvents rdap) hevwf
          hex (Json.str "Unknown") (Json.str "Unknown")
        have := Except.ok.inj (hd.symm.trans hcomp.2)
        exact ⟨ev, hm, ha, (congrArg Prod.snd this).symm⟩
  · obtain ⟨fields, rfl, _, _, _, _⟩ := rdapWF_dest rdap hwf
    have hnil : fields = [] := by
      simp only [pyTruthy, Bool.not_eq_true] at ht
      simpa using ht
    subst hnil
    rw [cdt_true_some, if_neg ht] at hexec
    obtain rfl := Except.ok.inj hexec
    refine ⟨fun _ => rfl, ?_, fun _ => rfl, ?_, fun _ => rfl, ?_⟩
    · intro hex
      obtain ⟨ent, hm, _⟩ := hex
      exact absurd hm (List.not_mem_nil ent)
    · intro hex
      obtain ⟨ev, hm, _⟩ := hex
      exact absurd hm (List.not_mem_nil ev)
    · intro hex
      obtain ⟨ev, hm, _⟩ := hex
      exact absurd hm (List.not_mem_nil ev)

/-- A concrete well-formed RDAP payload with a registrar entity and two
events. -/
def goodRdap : Json :=
  .obj [("entities", .arr [.obj [
      ("roles", .arr [.str "registrar"]),
      ("vcardArray", .arr [.str "vcard", .arr [.arr
        [.str "fn", .obj [], .str "text", .str "GoDaddy"]]])]]),
    ("events", .arr [
      .obj [("eventAction", .str "registration"), ("eventDate", .str "2020-01-01")],
      .obj [("eventAction", .str "expiration"), ("eventDate", .str "2030-01-01")]])]

/-- C8 witness: on `goodRdap` the hypotheses hold and the registration
date reported is the eventDate of a registration event. -/
theorem claim_C8_metadata_extraction_witness :
    ∃ ev ∈ claimEvents goodRdap, (claimEvAction ev).eqStr "registration" = true
      ∧ (registeredFull "example.com"
          (Json.str "GoDaddy", Json.str "2020-01-01", Json.str "2030-01-01")).registration_date
        = claimEvDate ev := by
  apply (claim_C8_metadata_extraction "example.com" goodRdap
    (registeredFull "example.com"
      (Json.str "GoDaddy", Json.str "2020-01-01", Json.str "2030-01-01"))
    (by rfl) (by rfl)).2.2.2.1
  refine ⟨Json.obj [("eventAction", Json.str "registration"),
    ("eventDate", Json.str "2020-01-01")], ?_, rfl⟩
  show _ ∈ claimEvents goodRdap
  rw [show claimEvents goodRdap =
    [Json.obj [("eventAction", Json.str "registration"),
      ("eventDate", Json.str "2020-01-01")],
     Json.obj [("eventAction", Json.str "expiration"),
      ("eventDate", Json.str "2030-01-01")]] from rfl]
  exact List.mem_cons_self _ _

end DomainChecker
